import Mathlib

/-
  Verification development for the useLazyScriptLoader React hook
  (src/index.js).  The hook manages a module-level registry
  _scriptStates : Map<string, record> shared by all hook instances, a
  per-instance view {isLoading, error, isLoaded}, and the set of script
  elements appended to document.head.  We embed the whole system as an
  explicit state machine: hook instances are identified by Nat ids,
  script elements by Nat ids drawn from a fresh counter, and the steps
  are mount (render + effect), unmount (cleanup), and the load / error
  events fired on a script element.
-/

namespace LazyScript

/-- Model of a JavaScript Error value: we only track the message. -/
structure JsError where
  message : String
deriving DecidableEq, Repr

/-- The status field of a registry record: the string values
"loading" | "loaded" | "error" in the source. -/
inductive Status where
  | loading
  | loaded
  | error
deriving DecidableEq, Repr

/-- A registry record, mirroring the object literal
\x7b status, scriptElement, subscribers, error \x7d built in the source.
The script element is identified by a Nat id. -/
structure LoadingRecord where
  status : Status
  scriptElement : Nat
  subscribers : List Nat
  error : Option JsError
deriving DecidableEq, Repr

/-- The per-instance view of one mounted hook: the three useState cells
isLoading, error, isLoaded, in source order. -/
structure HookState where
  isLoading : Bool
  error : Option JsError
  isLoaded : Bool
deriving DecidableEq, Repr

/-- The statusUpdate object passed to a subscriber callback:
\x7b loaded, errorObj \x7d. -/
structure StatusUpdate where
  loaded : Bool
  errorObj : Option JsError
deriving DecidableEq, Repr

/-- The whole system state: the module-level _scriptStates map (as an
association list), the ids of script elements currently appended to
document.head, the mounted hook instances with their views, a fresh
counter for script element ids, and a log of every appendChild of a
script element (key and element id), used to count fetch initiations. -/
structure World where
  scriptStates : List (String × LoadingRecord)
  head : List Nat
  hooks : List (Nat × HookState)
  nextScript : Nat
  appends : List (String × Nat)
deriving DecidableEq, Repr

section MapOps

variable {α β : Type} [DecidableEq α]

/-- Lookup in an association list: Map.get. -/
def mlookup (k : α) : List (α × β) → Option β
  | [] => none
  | p :: rest => if p.1 = k then some p.2 else mlookup k rest

/-- Insert or replace in an association list: Map.set. -/
def mset (k : α) (v : β) : List (α × β) → List (α × β)
  | [] => [(k, v)]
  | p :: rest => if p.1 = k then (k, v) :: rest else p :: mset k v rest

/-- Remove a key from an association list: Map.delete. -/
def mdelete (k : α) : List (α × β) → List (α × β)
  | [] => []
  | p :: rest => if p.1 = k then mdelete k rest else p :: mdelete k rest

/-- Remove one occurrence of an element from a list: Set.delete (a Set
holds at most one occurrence). -/
def delElem (x : α) : List α → List α
  | [] => []
  | y :: ys => if y = x then ys else y :: delElem x ys

/-- Add an element with Set semantics: Set.add is a no-op when the
element is already present. -/
def addElem (x : α) (xs : List α) : List α :=
  if x ∈ xs then xs else x :: xs

/-- The keys of an association list are pairwise distinct. -/
def keysNodup (l : List (α × β)) : Prop :=
  (l.map Prod.fst).Nodup

end MapOps

/-- The Error built for an absent or empty scriptUrl. -/
def emptyUrlError : JsError := ⟨"scriptUrl cannot be empty"⟩

/-- The Error built by handleError for a failed script. -/
def loadFailError (scriptUrl : String) : JsError :=
  ⟨"Failed to load script: " ++ scriptUrl⟩

/-- The initial values of the three useState cells:
isLoading = true, error = null, isLoaded = false. -/
def useStateInit : HookState := ⟨true, none, false⟩

/-- JavaScript truthiness of the scriptUrl argument: the guard
(!scriptUrl) is taken when the argument is absent (null / undefined)
or the empty string. -/
def isFalsy : Option String → Bool
  | none => true
  | some s => s = ""

/-- The subscriber callback defined inside the effect: it maps a
statusUpdate to the three setState calls it performs. -/
def subscriberUpdate (u : StatusUpdate) : HookState :=
  if u.loaded then ⟨false, none, true⟩
  else
    match u.errorObj with
    | some e => ⟨false, some e, false⟩
    | none => ⟨true, none, false⟩

/-- Deliver a statusUpdate to every subscriber in subs:
record.subscribers.forEach(sub => sub(statusUpdate)).  A setState on an
unmounted instance is a no-op, so only mounted hooks change. -/
def notifyAll (subs : List Nat) (u : StatusUpdate)
    (hooks : List (Nat × HookState)) : List (Nat × HookState) :=
  hooks.map (fun p => if p.1 ∈ subs then (p.1, subscriberUpdate u) else p)

/-- Set the view of one mounted hook instance (a setState burst); a
no-op when the instance is not mounted. -/
def updateHook (hid : Nat) (v : HookState)
    (hooks : List (Nat × HookState)) : List (Nat × HookState) :=
  hooks.map (fun p => if p.1 = hid then (hid, v) else p)

/-- The first render of a hook instance: the three useState cells come
into existence with their initial values, before any effect runs. -/
def renderHook (hid : Nat) (w : World) : World :=
  { w with hooks := (hid, useStateInit) :: w.hooks }

/-- The early-return branch of the effect for a falsy scriptUrl:
setIsLoading(false); setError(new Error(...)); setIsLoaded(false);
no registry access, no script element. -/
def effectNoUrl (hid : Nat) (w : World) : World :=
  { w with hooks := updateHook hid ⟨false, some emptyUrlError, false⟩ w.hooks }

/-- The body of the useEffect for hook instance hid with argument
scriptUrl, mirroring the source branch by branch. -/
def runEffect (scriptUrl : Option String) (hid : Nat) (w : World) : World :=
  match scriptUrl with
  | none => effectNoUrl hid w
  | some url =>
    if url = "" then effectNoUrl hid w
    else
      match mlookup url w.scriptStates with
      | some record =>
        match record.status with
        | Status.loaded =>
          { w with hooks := updateHook hid ⟨false, none, true⟩ w.hooks }
        | Status.error =>
          { w with hooks := updateHook hid ⟨false, record.error, false⟩ w.hooks }
        | Status.loading =>
          { w with
            hooks := updateHook hid ⟨true, none, false⟩ w.hooks,
            scriptStates :=
              mset url { record with subscribers := addElem hid record.subscribers }
                w.scriptStates }
      | none =>
        { w with
          hooks := updateHook hid ⟨true, none, false⟩ w.hooks,
          scriptStates :=
            mset url ⟨Status.loading, w.nextScript, [hid], none⟩ w.scriptStates,
          head := w.nextScript :: w.head,
          nextScript := w.nextScript + 1,
          appends := (url, w.nextScript) :: w.appends }

/-- The load event fired on script element sid for key url: handleLoad
sets the record status to loaded and notifies every subscriber with
\x7b loaded: true, errorObj: null \x7d.  The handler is a closure over the
record created together with element sid, so it acts only when the
registry still holds that record. -/
def handleLoad (url : String) (sid : Nat) (w : World) : World :=
  match mlookup url w.scriptStates with
  | none => w
  | some record =>
    if record.scriptElement = sid then
      { w with
        scriptStates := mset url { record with status := Status.loaded } w.scriptStates,
        hooks := notifyAll record.subscribers ⟨true, none⟩ w.hooks }
    else w

/-- The error event fired on script element sid for key url:
handleError builds the Error, stores it in the record, sets the status
to error and notifies every subscriber. -/
def handleError (url : String) (sid : Nat) (w : World) : World :=
  match mlookup url w.scriptStates with
  | none => w
  | some record =>
    if record.scriptElement = sid then
      { w with
        scriptStates :=
          mset url { record with status := Status.error,
                                 error := some (loadFailError url) } w.scriptStates,
        hooks := notifyAll record.subscribers
          ⟨false, some (loadFailError url)⟩ w.hooks }
    else w

/-- Remove a hook instance from the mounted set. -/
def removeHook (hid : Nat) (hooks : List (Nat × HookState)) :
    List (Nat × HookState) :=
  hooks.filter (fun p => decide (p.1 ≠ hid))

/-- The cleanup function returned by the effect: delete the subscriber
from the current record; if the set became empty and the status is not
loading, remove the script element from document.head (when it still
has a parent) and delete the record. -/
def cleanupEffect (url : String) (hid : Nat) (w : World) : World :=
  match mlookup url w.scriptStates with
  | none => w
  | some record =>
    if delElem hid record.subscribers = [] ∧ record.status ≠ Status.loading then
      { w with
        head :=
          if record.scriptElement ∈ w.head then delElem record.scriptElement w.head
          else w.head,
        scriptStates := mdelete url w.scriptStates }
    else
      { w with
        scriptStates :=
          mset url { record with subscribers := delElem hid record.subscribers }
            w.scriptStates }

/-- Unmount of a hook instance: the instance view disappears, then the
cleanup runs.  For a falsy scriptUrl the effect returned no cleanup
function, so only the view disappears. -/
def unmountHook (scriptUrl : Option String) (hid : Nat) (w : World) : World :=
  match scriptUrl with
  | none => { w with hooks := removeHook hid w.hooks }
  | some url =>
    if url = "" then { w with hooks := removeHook hid w.hooks }
    else cleanupEffect url hid { w with hooks := removeHook hid w.hooks }

/-- The observable steps of the system. -/
inductive Step where
  | mount (scriptUrl : Option String) (hid : Nat)
  | unmount (scriptUrl : Option String) (hid : Nat)
  | load (url : String) (sid : Nat)
  | fail (url : String) (sid : Nat)
deriving DecidableEq, Repr

/-- One step of the system. -/
def applyStep : Step → World → World
  | Step.mount u hid, w => runEffect u hid (renderHook hid w)
  | Step.unmount u hid, w => unmountHook u hid w
  | Step.load url sid, w => handleLoad url sid w
  | Step.fail url sid, w => handleError url sid w

/-- The state before any component has mounted: empty registry, empty
head, no mounted hooks. -/
def initWorld : World := ⟨[], [], [], 0, []⟩

/-- Run a list of steps from a state. -/
def run (tr : List Step) (w : World) : World :=
  tr.foldl (fun w s => applyStep s w) w

/-- Number of appendChild calls logged for a given key. -/
def countKey (k : String) (l : List (String × Nat)) : Nat :=
  (l.filter (fun p => decide (p.1 = k))).length

end LazyScript

namespace LazyScript

section MapLemmas

variable {α β : Type} [DecidableEq α]

theorem mlookup_mem {k : α} {v : β} :
    ∀ {l : List (α × β)}, mlookup k l = some v → (k, v) ∈ l := by
  intro l
  induction l with
  | nil => intro h; simp [mlookup] at h
  | cons p rest ih =>
    intro h
    simp only [mlookup] at h
    split at h
    · next heq =>
      injection h with h2
      rw [List.mem_cons]
      left
      rw [← heq, ← h2]
    · exact List.mem_cons_of_mem _ (ih h)

theorem mlookup_mset_self (k : α) (v : β) :
    ∀ (l : List (α × β)), mlookup k (mset k v l) = some v := by
  intro l
  induction l with
  | nil => simp [mset, mlookup]
  | cons p rest ih =>
    by_cases hp : p.1 = k
    · simp [mset, hp, mlookup]
    · simp [mset, hp, mlookup, ih]

theorem mlookup_mset_ne {k k' : α} (v : β) (h : k ≠ k') :
    ∀ (l : List (α × β)), mlookup k (mset k' v l) = mlookup k l := by
  have h' : ¬ k' = k := fun e => h e.symm
  intro l
  induction l with
  | nil => simp [mset, mlookup, h']
  | cons p rest ih =>
    by_cases hp : p.1 = k'
    · have hpk : ¬ p.1 = k := by rw [hp]; exact h'
      simp [mset, hp, mlookup, h', hpk]
    · simp [mset, hp, mlookup, ih]

theorem mlookup_mdelete_self (k : α) :
    ∀ (l : List (α × β)), mlookup k (mdelete k l) = none := by
  intro l
  induction l with
  | nil => simp [mdelete, mlookup]
  | cons p rest ih =>
    by_cases hp : p.1 = k
    · simp [mdelete, hp, ih]
    · simp [mdelete, hp, mlookup, ih]

theorem mlookup_mdelete_ne {k k' : α} (h : k ≠ k') :
    ∀ (l : List (α × β)), mlookup k (mdelete k' l) = mlookup k l := by
  intro l
  induction l with
  | nil => simp [mdelete]
  | cons p rest ih =>
    by_cases hp : p.1 = k'
    · have hpk : ¬ p.1 = k := by rw [hp]; exact fun e => h e.symm
      have hk : ¬ k' = k := fun e => h e.symm
      simp [mdelete, hp, mlookup, hpk, hk, ih]
    · simp [mdelete, hp, mlookup, ih]

theorem mem_mset {p : α × β} {k : α} {v : β} :
    ∀ {l : List (α × β)}, p ∈ mset k v l → p = (k, v) ∨ p ∈ l := by
  intro l
  induction l with
  | nil => intro h; simp [mset] at h; exact Or.inl h
  | cons q rest ih =>
    intro h
    by_cases hq : q.1 = k
    · simp only [mset, if_pos hq] at h
      rcases List.mem_cons.mp h with h1 | h1
      · exact Or.inl h1
      · exact Or.inr (List.mem_cons_of_mem _ h1)
    · simp only [mset, if_neg hq] at h
      rcases List.mem_cons.mp h with h1 | h1
      · exact Or.inr (h1 ▸ List.mem_cons_self _ _)
      · rcases ih h1 with h2 | h2
        · exact Or.inl h2
        · exact Or.inr (List.mem_cons_of_mem _ h2)

theorem mem_mdelete {p : α × β} {k : α} :
    ∀ {l : List (α × β)}, p ∈ mdelete k l → p ∈ l := by
  intro l
  induction l with
  | nil => intro h; simp [mdelete] at h
  | cons q rest ih =>
    intro h
    by_cases hq : q.1 = k
    · simp only [mdelete, if_pos hq] at h
      exact List.mem_cons_of_mem _ (ih h)
    · simp only [mdelete, if_neg hq] at h
      rcases List.mem_cons.mp h with h1 | h1
      · exact h1 ▸ List.mem_cons_self _ _
      · exact List.mem_cons_of_mem _ (ih h1)

theorem mem_keys_mset {a k : α} (v : β) :
    ∀ {l : List (α × β)}, a ∈ (mset k v l).map Prod.fst →
      a = k ∨ a ∈ l.map Prod.fst := by
  intro l h
  rcases List.mem_map.mp h with ⟨p, hp, hpa⟩
  rcases mem_mset hp with h1 | h1
  · left; rw [← hpa, h1]
  · right; exact List.mem_map.mpr ⟨p, h1, hpa⟩

theorem keysNodup_mset {k : α} {v : β} :
    ∀ {l : List (α × β)}, keysNodup l → keysNodup (mset k v l) := by
  intro l
  induction l with
  | nil => intro _; simp [mset, keysNodup]
  | cons p rest ih =>
    intro h
    unfold keysNodup at h
    simp only [List.map_cons, List.nodup_cons] at h
    by_cases hp : p.1 = k
    · unfold keysNodup
      simp only [mset, if_pos hp, List.map_cons, List.nodup_cons]
      exact ⟨hp ▸ h.1, h.2⟩
    · unfold keysNodup
      simp only [mset, if_neg hp, List.map_cons, List.nodup_cons]
      constructor
      · intro hmem
        rcases mem_keys_mset v hmem with h1 | h1
        · exact hp h1
        · exact h.1 h1
      · exact ih h.2

theorem mem_keys_mdelete {a k : α} :
    ∀ {l : List (α × β)}, a ∈ (mdelete k l).map Prod.fst →
      a ∈ l.map Prod.fst := by
  intro l h
  rcases List.mem_map.mp h with ⟨p, hp, hpa⟩
  exact List.mem_map.mpr ⟨p, mem_mdelete hp, hpa⟩

theorem keysNodup_mdelete {k : α} :
    ∀ {l : List (α × β)}, keysNodup l → keysNodup (mdelete k l) := by
  intro l
  induction l with
  | nil => intro _; simp [mdelete, keysNodup]
  | cons p rest ih =>
    intro h
    unfold keysNodup at h
    simp only [List.map_cons, List.nodup_cons] at h
    by_cases hp : p.1 = k
    · simp only [mdelete, if_pos hp]
      exact ih h.2
    · unfold keysNodup
      simp only [mdelete, if_neg hp, List.map_cons, List.nodup_cons]
      exact ⟨fun hmem => h.1 (mem_keys_mdelete hmem), ih h.2⟩

theorem mem_delElem {x a : α} :
    ∀ {l : List α}, x ∈ delElem a l → x ∈ l := by
  intro l
  induction l with
  | nil => intro h; simp [delElem] at h
  | cons y ys ih =>
    intro h
    by_cases hy : y = a
    · simp only [delElem, if_pos hy] at h
      exact List.mem_cons_of_mem _ h
    · simp only [delElem, if_neg hy] at h
      rcases List.mem_cons.mp h with h1 | h1
      · exact h1 ▸ List.mem_cons_self _ _
      · exact List.mem_cons_of_mem _ (ih h1)

theorem nodup_delElem {a : α} :
    ∀ {l : List α}, l.Nodup → (delElem a l).Nodup := by
  intro l
  induction l with
  | nil => intro _; simp [delElem]
  | cons y ys ih =>
    intro h
    simp only [List.nodup_cons] at h
    by_cases hy : y = a
    · simp only [delElem, if_pos hy]
      exact h.2
    · simp only [delElem, if_neg hy, List.nodup_cons]
      exact ⟨fun hmem => h.1 (mem_delElem hmem), ih h.2⟩

theorem not_mem_delElem_self {a : α} :
    ∀ {l : List α}, l.Nodup → a ∉ delElem a l := by
  intro l
  induction l with
  | nil => intro _ h; simp [delElem] at h
  | cons y ys ih =>
    intro h hmem
    simp only [List.nodup_cons] at h
    by_cases hy : y = a
    · simp only [delElem, if_pos hy] at hmem
      exact h.1 (hy ▸ hmem)
    · simp only [delElem, if_neg hy] at hmem
      rcases List.mem_cons.mp hmem with h1 | h1
      · exact hy h1.symm
      · exact ih h.2 h1

end MapLemmas

end LazyScript

namespace LazyScript

section HookLemmas

theorem mlookup_updateHook (hid : Nat) (v : HookState) :
    ∀ (hooks : List (Nat × HookState)),
      mlookup hid (updateHook hid v hooks) =
        (mlookup hid hooks).map (fun _ => v) := by
  intro hooks
  induction hooks with
  | nil => simp [updateHook, mlookup]
  | cons p rest ih =>
    by_cases hp : p.1 = hid
    · simp [updateHook, mlookup, hp]
    · simp only [updateHook, List.map_cons, mlookup, if_neg hp]
      simpa [updateHook] using ih

theorem mlookup_notifyAll_mem {hid : Nat} {subs : List Nat} (u : StatusUpdate)
    (hmem : hid ∈ subs) :
    ∀ (hooks : List (Nat × HookState)),
      mlookup hid (notifyAll subs u hooks) =
        (mlookup hid hooks).map (fun _ => subscriberUpdate u) := by
  intro hooks
  induction hooks with
  | nil => simp [notifyAll, mlookup]
  | cons p rest ih =>
    by_cases hp : p.1 = hid
    · have hps : p.1 ∈ subs := hp ▸ hmem
      simp [notifyAll, mlookup, hp, hps, hmem]
    · by_cases hs : p.1 ∈ subs
      · simp only [notifyAll, List.map_cons, if_pos hs, mlookup, if_neg hp]
        simpa [notifyAll, mlookup, hp] using ih
      · simp only [notifyAll, List.map_cons, if_neg hs, mlookup, if_neg hp]
        simpa [notifyAll, mlookup, hp] using ih

end HookLemmas

/-- The three observable view shapes a consumer can legitimately see:
pending (loading, no error, not loaded), loaded, or settled with an
error present. -/
def goodView (h : HookState) : Prop :=
  (h.isLoading = true ∧ h.error = none ∧ h.isLoaded = false) ∨
  (h.isLoading = false ∧ h.error = none ∧ h.isLoaded = true) ∨
  (h.isLoading = false ∧ h.error ≠ none ∧ h.isLoaded = false)

/-- Every record whose status is error carries a non-null error. -/
def recOK (w : World) : Prop :=
  ∀ p ∈ w.scriptStates, p.2.status = Status.error → p.2.error ≠ none

/-- Every mounted hook shows one of the three legitimate views. -/
def viewsOK (w : World) : Prop :=
  ∀ q ∈ w.hooks, goodView q.2

/-- Script element ids in document.head are distinct and below the
fresh counter. -/
def headOK (w : World) : Prop :=
  w.head.Nodup ∧ ∀ sid ∈ w.head, sid < w.nextScript

/-- The combined state invariant of the system. -/
def WStateOK (w : World) : Prop :=
  recOK w ∧ viewsOK w ∧ headOK w ∧ keysNodup w.scriptStates

theorem goodView_useStateInit : goodView useStateInit := by
  simp [goodView, useStateInit]

theorem goodView_subscriberUpdate (u : StatusUpdate) :
    goodView (subscriberUpdate u) := by
  unfold subscriberUpdate
  by_cases hl : u.loaded
  · simp [goodView, hl]
  · cases he : u.errorObj with
    | some e => simp [goodView, hl, he]
    | none => simp [goodView, hl, he]

theorem goodView_mem_updateHook {hid : Nat} {v : HookState}
    {hooks : List (Nat × HookState)} (hv : goodView v)
    (hh : ∀ q ∈ hooks, goodView q.2) :
    ∀ q ∈ updateHook hid v hooks, goodView q.2 := by
  intro q hq
  rcases List.mem_map.mp hq with ⟨p, hp, rfl⟩
  by_cases h : p.1 = hid
  · simpa [h] using hv
  · simpa [h] using hh p hp

theorem goodView_mem_notifyAll {subs : List Nat} {u : StatusUpdate}
    {hooks : List (Nat × HookState)}
    (hh : ∀ q ∈ hooks, goodView q.2) :
    ∀ q ∈ notifyAll subs u hooks, goodView q.2 := by
  intro q hq
  rcases List.mem_map.mp hq with ⟨p, hp, rfl⟩
  by_cases h : p.1 ∈ subs
  · simpa [h] using goodView_subscriberUpdate u
  · simpa [h] using hh p hp

theorem goodView_mem_removeHook {hid : Nat}
    {hooks : List (Nat × HookState)}
    (hh : ∀ q ∈ hooks, goodView q.2) :
    ∀ q ∈ removeHook hid hooks, goodView q.2 := by
  intro q hq
  exact hh q (List.mem_of_mem_filter hq)

end LazyScript

namespace LazyScript

theorem wok_renderHook (hid : Nat) (w : World) (h : WStateOK w) :
    WStateOK (renderHook hid w) := by
  obtain ⟨h1, h2, h3, h4⟩ := h
  refine ⟨h1, ?_, h3, h4⟩
  intro q hq
  simp only [renderHook] at hq
  rcases List.mem_cons.mp hq with rfl | hq
  · exact goodView_useStateInit
  · exact h2 q hq

theorem wok_effectNoUrl (hid : Nat) (w : World) (h : WStateOK w) :
    WStateOK (effectNoUrl hid w) := by
  obtain ⟨h1, h2, h3, h4⟩ := h
  refine ⟨h1, ?_, h3, h4⟩
  exact goodView_mem_updateHook (by simp [goodView, emptyUrlError]) h2

theorem wok_runEffect (u : Option String) (hid : Nat) (w : World)
    (h : WStateOK w) : WStateOK (runEffect u hid w) := by
  obtain ⟨h1, h2, h3, h4⟩ := h
  cases u with
  | none => exact wok_effectNoUrl hid w ⟨h1, h2, h3, h4⟩
  | some url =>
    simp only [runEffect]
    split
    · exact wok_effectNoUrl hid w ⟨h1, h2, h3, h4⟩
    · split
      · next record heq =>
        split
        · -- status loaded
          refine ⟨h1, ?_, h3, h4⟩
          exact goodView_mem_updateHook (by simp [goodView]) h2
        · -- status error: the stored error is non-null by the record invariant
          next hst =>
          refine ⟨h1, ?_, h3, h4⟩
          have herr : record.error ≠ none := h1 (url, record) (mlookup_mem heq) hst
          refine goodView_mem_updateHook ?_ h2
          right; right
          exact ⟨rfl, herr, rfl⟩
        · -- status loading: the subscriber is added to the record
          next hst =>
          refine ⟨?_, ?_, h3, keysNodup_mset h4⟩
          · intro p hp hpe
            rcases mem_mset hp with rfl | hp2
            · rw [hst] at hpe; exact absurd hpe (by simp)
            · exact h1 p hp2 hpe
          · exact goodView_mem_updateHook (by simp [goodView]) h2
      · -- no record yet: a fresh record and script element are created
        next heq =>
        refine ⟨?_, ?_, ⟨?_, ?_⟩, keysNodup_mset h4⟩
        · intro p hp hpe
          rcases mem_mset hp with rfl | hp2
          · exact absurd hpe (by simp)
          · exact h1 p hp2 hpe
        · exact goodView_mem_updateHook (by simp [goodView]) h2
        · refine List.nodup_cons.mpr ⟨?_, h3.1⟩
          intro hmem
          exact absurd (h3.2 _ hmem) (lt_irrefl _)
        · intro sid hsid
          rcases List.mem_cons.mp hsid with rfl | hsid
          · exact Nat.lt_succ_self _
          · exact Nat.lt_succ_of_lt (h3.2 sid hsid)

theorem wok_handleLoad (url : String) (sid : Nat) (w : World)
    (h : WStateOK w) : WStateOK (handleLoad url sid w) := by
  obtain ⟨h1, h2, h3, h4⟩ := h
  simp only [handleLoad]
  split
  · exact ⟨h1, h2, h3, h4⟩
  · next record heq =>
    split
    · refine ⟨?_, goodView_mem_notifyAll h2, h3, keysNodup_mset h4⟩
      intro p hp hpe
      rcases mem_mset hp with rfl | hp2
      · exact absurd hpe (by simp)
      · exact h1 p hp2 hpe
    · exact ⟨h1, h2, h3, h4⟩

theorem wok_handleError (url : String) (sid : Nat) (w : World)
    (h : WStateOK w) : WStateOK (handleError url sid w) := by
  obtain ⟨h1, h2, h3, h4⟩ := h
  simp only [handleError]
  split
  · exact ⟨h1, h2, h3, h4⟩
  · next record heq =>
    split
    · refine ⟨?_, goodView_mem_notifyAll h2, h3, keysNodup_mset h4⟩
      intro p hp hpe
      rcases mem_mset hp with rfl | hp2
      · simp
      · exact h1 p hp2 hpe
    · exact ⟨h1, h2, h3, h4⟩

theorem wok_unmountHook (u : Option String) (hid : Nat) (w : World)
    (h : WStateOK w) : WStateOK (unmountHook u hid w) := by
  obtain ⟨h1, h2, h3, h4⟩ := h
  have h2r : ∀ q ∈ removeHook hid w.hooks, goodView q.2 :=
    goodView_mem_removeHook h2
  cases u with
  | none => exact ⟨h1, h2r, h3, h4⟩
  | some url =>
    simp only [unmountHook]
    split
    · exact ⟨h1, h2r, h3, h4⟩
    · simp only [cleanupEffect]
      split
      · exact ⟨h1, h2r, h3, h4⟩
      · next record heq =>
        split
        · -- teardown: record deleted, element detached
          refine ⟨?_, h2r, ⟨?_, ?_⟩, keysNodup_mdelete h4⟩
          · intro p hp hpe
            exact h1 p (mem_mdelete hp) hpe
          · split
            · exact nodup_delElem h3.1
            · exact h3.1
          · intro sid hsid
            split at hsid
            · exact h3.2 sid (mem_delElem hsid)
            · exact h3.2 sid hsid
        · -- the record stays, only the subscriber set shrinks
          refine ⟨?_, h2r, h3, keysNodup_mset h4⟩
          intro p hp hpe
          rcases mem_mset hp with rfl | hp2
          · exact h1 (url, record) (mlookup_mem heq) hpe
          · exact h1 p hp2 hpe

theorem wok_applyStep (s : Step) (w : World) (h : WStateOK w) :
    WStateOK (applyStep s w) := by
  cases s with
  | mount u hid => exact wok_runEffect u hid _ (wok_renderHook hid w h)
  | unmount u hid => exact wok_unmountHook u hid w h
  | load url sid => exact wok_handleLoad url sid w h
  | fail url sid => exact wok_handleError url sid w h

theorem wok_run : ∀ (tr : List Step) (w : World), WStateOK w → WStateOK (run tr w) := by
  intro tr
  induction tr with
  | nil => intro w h; exact h
  | cons s rest ih => intro w h; exact ih _ (wok_applyStep s w h)

theorem wok_init : WStateOK initWorld := by
  refine ⟨?_, ?_, ⟨?_, ?_⟩, ?_⟩ <;> simp [recOK, viewsOK, headOK, keysNodup, initWorld]

theorem wok_reachable (tr : List Step) : WStateOK (run tr initWorld) :=
  wok_run tr initWorld wok_init

end LazyScript

namespace LazyScript

theorem mlookup_updateHook_cons (hid : Nat) (v h0 : HookState)
    (hooks : List (Nat × HookState)) :
    mlookup hid (updateHook hid v ((hid, h0) :: hooks)) = some v := by
  simp [updateHook, mlookup]

/-- A mount with a falsy scriptUrl only sets the view of the new
instance: no registry access, no append, no script element. -/
theorem mount_falsy (u : Option String) (hid : Nat) (w : World)
    (hfalsy : isFalsy u = true) :
    applyStep (Step.mount u hid) w =
      { w with hooks := updateHook hid ⟨false, some emptyUrlError, false⟩ ((hid, useStateInit) :: w.hooks) } := by
  cases u with
  | none => rfl
  | some s =>
    have hs : s = "" := by simpa [isFalsy] using hfalsy
    subst hs
    rfl

/-- A mount for a key with no record creates a fresh pending record,
appends a fresh script element, and logs the append. -/
theorem mount_fresh (url : String) (hid : Nat) (w : World)
    (hurl : ¬ url = "") (hm : mlookup url w.scriptStates = none) :
    applyStep (Step.mount (some url) hid) w =
      { scriptStates := mset url ⟨Status.loading, w.nextScript, [hid], none⟩ w.scriptStates,
        head := w.nextScript :: w.head,
        hooks := updateHook hid ⟨true, none, false⟩ ((hid, useStateInit) :: w.hooks),
        nextScript := w.nextScript + 1,
        appends := (url, w.nextScript) :: w.appends } := by
  simp [applyStep, runEffect, hurl, hm, renderHook]

/-- A mount for a key whose record already exists never appends and
leaves a record in place. -/
theorem mount_existing (url : String) (hid : Nat) (w : World)
    (hex : (mlookup url w.scriptStates).isSome = true) :
    (applyStep (Step.mount (some url) hid) w).appends = w.appends ∧
    (mlookup url (applyStep (Step.mount (some url) hid) w).scriptStates).isSome = true := by
  obtain ⟨r, hr⟩ := Option.isSome_iff_exists.mp hex
  by_cases hurl : url = ""
  · subst hurl
    simp [applyStep, runEffect, effectNoUrl, renderHook, hr]
  · cases hst : r.status with
    | loading =>
      simp [applyStep, runEffect, hurl, hr, hst, renderHook, mlookup_mset_self]
    | loaded =>
      simp [applyStep, runEffect, hurl, hr, hst, renderHook]
    | error =>
      simp [applyStep, runEffect, hurl, hr, hst, renderHook]

/-- Any sequence of further mounts of the same key performs no further
append while a record for the key exists. -/
theorem mounts_noNewAppend (url : String) :
    ∀ (hids : List Nat) (w : World),
      (mlookup url w.scriptStates).isSome = true →
      (run (hids.map (fun hid => Step.mount (some url) hid)) w).appends = w.appends := by
  intro hids
  induction hids with
  | nil => intro w _; rfl
  | cons hid rest ih =>
    intro w hex
    have h := mount_existing url hid w hex
    show (run (rest.map (fun hid => Step.mount (some url) hid))
        (applyStep (Step.mount (some url) hid) w)).appends = w.appends
    rw [ih _ h.2, h.1]

/-- No step ever appends a script element for a key whose record is
currently alive. -/
theorem appendCount_const_of_record (k : String) (w : World) (s : Step)
    (hex : (mlookup k w.scriptStates).isSome = true) :
    countKey k (applyStep s w).appends = countKey k w.appends := by
  cases s with
  | mount u hid =>
    cases u with
    | none => rfl
    | some url =>
      by_cases hurl : url = ""
      · subst hurl; rfl
      · by_cases hku : url = k
        · subst hku
          rw [(mount_existing url hid w hex).1]
        · cases hm : mlookup url w.scriptStates with
          | some r =>
            cases hst : r.status with
            | loading => simp [applyStep, runEffect, hurl, hm, hst, renderHook]
            | loaded => simp [applyStep, runEffect, hurl, hm, hst, renderHook]
            | error => simp [applyStep, runEffect, hurl, hm, hst, renderHook]
          | none =>
            simp [applyStep, runEffect, hurl, hm, countKey, renderHook, hku]
  | unmount u hid =>
    cases u with
    | none => rfl
    | some url =>
      simp only [applyStep, unmountHook]
      split
      · rfl
      · simp only [cleanupEffect]
        split
        · rfl
        · split
          · rfl
          · rfl
  | load url sid =>
    simp only [applyStep, handleLoad]
    split
    · rfl
    · split
      · rfl
      · rfl
  | fail url sid =>
    simp only [applyStep, handleError]
    split
    · rfl
    · split
      · rfl
      · rfl

/-- Unmounting the last subscriber of a record that is no longer
loading removes the record and detaches its script element. -/
theorem cleanup_teardown (url : String) (hid : Nat) (w : World) (r : LoadingRecord)
    (hurl : url ≠ "") (hr : mlookup url w.scriptStates = some r)
    (hst : r.status ≠ Status.loading)
    (hlast : delElem hid r.subscribers = []) :
    applyStep (Step.unmount (some url) hid) w =
      { w with hooks := removeHook hid w.hooks,
               head := if r.scriptElement ∈ w.head then delElem r.scriptElement w.head
                       else w.head,
               scriptStates := mdelete url w.scriptStates } := by
  have hr2 : mlookup url ({ w with hooks := removeHook hid w.hooks } : World).scriptStates
      = some r := hr
  simp [applyStep, unmountHook, hurl, cleanupEffect, hr2, hlast, hst]

end LazyScript

namespace LazyScript

/-- C1: for every non-empty key k, any number of mounts of k made
before the fetch completes cause exactly one fetch initiation (one
script element created and appended) for k; while a record for k is
alive no step ever starts another fetch for k; and in every reachable
state the registry holds at most one record per key. -/
theorem C1_single_fetch_per_key (k : String) (hid0 : Nat) (hids : List Nat)
    (tr : List Step) (s : Step) (w : World) (hk : ¬ k = "")
    (hex : (mlookup k w.scriptStates).isSome = true) :
    countKey k (run ((hid0 :: hids).map (fun hid => Step.mount (some k) hid)) initWorld).appends = 1 ∧
    countKey k (applyStep s w).appends = countKey k w.appends ∧
    keysNodup (run tr initWorld).scriptStates := by
  refine ⟨?_, appendCount_const_of_record k w s hex, (wok_reachable tr).2.2.2⟩
  have h0 : mlookup k initWorld.scriptStates = none := rfl
  have hfresh := mount_fresh k hid0 initWorld hk h0
  show countKey k (run (hids.map (fun hid => Step.mount (some k) hid))
      (applyStep (Step.mount (some k) hid0) initWorld)).appends = 1
  rw [hfresh, mounts_noNewAppend k hids _ (by simp [mlookup_mset_self])]
  simp [countKey, initWorld]

/-- C1 witness: three simultaneous subscribers of key a give exactly
one append; a load step while the record is alive appends nothing; the
registry keys stay distinct. -/
theorem C1_single_fetch_per_key_witness :
    ((¬ "a" = "") ∧
      (mlookup "a" (run [Step.mount (some "a") 0] initWorld).scriptStates).isSome = true) ∧
    (countKey "a" (run ([5, 6, 7].map (fun hid => Step.mount (some "a") hid)) initWorld).appends = 1 ∧
     countKey "a" (applyStep (Step.load "a" 0) (run [Step.mount (some "a") 0] initWorld)).appends =
       countKey "a" (run [Step.mount (some "a") 0] initWorld).appends ∧
     keysNodup (run [Step.mount (some "a") 0, Step.load "a" 0] initWorld).scriptStates) :=
  ⟨⟨by decide, by decide⟩,
   C1_single_fetch_per_key "a" 5 [6, 7] [Step.mount (some "a") 0, Step.load "a" 0]
     (Step.load "a" 0) (run [Step.mount (some "a") 0] initWorld) (by decide) (by decide)⟩

/-- C2 counterexample: after the record for key b has loaded, a second
hook mounting with key b is NOT added to the subscriber set (the set
stays at the original subscriber 0), although the loaded outcome is
exposed to it immediately; the claim as stated requires registration
regardless of status. -/
theorem C2_counterexample :
    (mlookup "b" (run [Step.mount (some "b") 0, Step.load "b" 0, Step.mount (some "b") 1]
        initWorld).scriptStates).map (fun r => decide (1 ∈ r.subscribers)) = some false ∧
    mlookup 1 (run [Step.mount (some "b") 0, Step.load "b" 0, Step.mount (some "b") 1]
        initWorld).hooks = some ⟨false, none, true⟩ := by
  exact ⟨rfl, rfl⟩

/-- C2 (amended): when a record exists for the key, a new subscriber is
added to its subscriber set only when the status is loading; for a
loaded or failed record the current outcome is exposed to the new hook
immediately, without registering it in the set. -/
theorem C2_subscribe_existing (url : String) (hid : Nat) (w : World)
    (r : LoadingRecord) (hurl : ¬ url = "")
    (hr : mlookup url w.scriptStates = some r) :
    (r.status = Status.loading →
      mlookup url (applyStep (Step.mount (some url) hid) w).scriptStates =
        some { r with subscribers := addElem hid r.subscribers } ∧
      mlookup hid (applyStep (Step.mount (some url) hid) w).hooks = some ⟨true, none, false⟩) ∧
    (r.status = Status.loaded →
      mlookup url (applyStep (Step.mount (some url) hid) w).scriptStates = some r ∧
      mlookup hid (applyStep (Step.mount (some url) hid) w).hooks = some ⟨false, none, true⟩) ∧
    (r.status = Status.error →
      mlookup url (applyStep (Step.mount (some url) hid) w).scriptStates = some r ∧
      mlookup hid (applyStep (Step.mount (some url) hid) w).hooks = some ⟨false, r.error, false⟩) := by
  refine ⟨fun hst => ?_, fun hst => ?_, fun hst => ?_⟩ <;>
    simp [applyStep, runEffect, hurl, hr, hst, renderHook,
      mlookup_mset_self, mlookup_updateHook_cons]

/-- C2 witness: a hook mounting into the already loaded record of key c
leaves the subscriber set unchanged and immediately sees the loaded
view. -/
theorem C2_subscribe_existing_witness :
    ((¬ "c" = "") ∧
      mlookup "c" (run [Step.mount (some "c") 0, Step.load "c" 0] initWorld).scriptStates =
        some ⟨Status.loaded, 0, [0], none⟩) ∧
    (mlookup "c" (applyStep (Step.mount (some "c") 1)
        (run [Step.mount (some "c") 0, Step.load "c" 0] initWorld)).scriptStates =
      some ⟨Status.loaded, 0, [0], none⟩ ∧
     mlookup 1 (applyStep (Step.mount (some "c") 1)
        (run [Step.mount (some "c") 0, Step.load "c" 0] initWorld)).hooks =
      some ⟨false, none, true⟩) :=
  ⟨⟨by decide, by decide⟩,
   (C2_subscribe_existing "c" 1 (run [Step.mount (some "c") 0, Step.load "c" 0] initWorld)
     ⟨Status.loaded, 0, [0], none⟩ (by decide) (by decide)).2.1 rfl⟩

/-- C3: evaluation at the failing input: hook 0 subscribes to key d,
the script loads, hook 1 subscribes (and is not registered), then hook
0 unmounts; the code deletes the record for d and removes the script
element from document.head even though hook 1 is still mounted and
showing the loaded view, contradicting the claim that teardown never
happens while another subscriber remains. -/
theorem C3_teardown_with_live_subscriber :
    mlookup "d" (run [Step.mount (some "d") 0, Step.load "d" 0,
      Step.mount (some "d") 1, Step.unmount (some "d") 0] initWorld).scriptStates = none ∧
    (run [Step.mount (some "d") 0, Step.load "d" 0,
      Step.mount (some "d") 1, Step.unmount (some "d") 0] initWorld).head = [] ∧
    mlookup 1 (run [Step.mount (some "d") 0, Step.load "d" 0,
      Step.mount (some "d") 1, Step.unmount (some "d") 0] initWorld).hooks =
      some ⟨false, none, true⟩ := by
  exact ⟨rfl, rfl, rfl⟩

end LazyScript

namespace LazyScript

/-- C4: when the last subscriber of a loaded or failed record
unsubscribes, the record is deleted from the registry and its script
element is no longer in document.head; a subsequent subscribe to the
same key creates a brand-new pending record with a fresh script element
and logs a brand-new append. -/
theorem C4_last_unsubscribe_teardown (tr : List Step) (url : String)
    (hid hid2 : Nat) (r : LoadingRecord) (w w' : World)
    (hw : w = run tr initWorld)
    (hw' : w' = applyStep (Step.unmount (some url) hid) w)
    (hurl : ¬ url = "") (hr : mlookup url w.scriptStates = some r)
    (hst : r.status ≠ Status.loading) (hlast : delElem hid r.subscribers = []) :
    mlookup url w'.scriptStates = none ∧
    r.scriptElement ∉ w'.head ∧
    mlookup url (applyStep (Step.mount (some url) hid2) w').scriptStates =
      some ⟨Status.loading, w'.nextScript, [hid2], none⟩ ∧
    (applyStep (Step.mount (some url) hid2) w').appends = (url, w'.nextScript) :: w'.appends := by
  subst hw
  have hteard := cleanup_teardown url hid (run tr initWorld) r hurl hr hst hlast
  subst hw'
  rw [hteard]
  have hnone : mlookup url (mdelete url (run tr initWorld).scriptStates) = none :=
    mlookup_mdelete_self url _
  refine ⟨hnone, ?_, ?_, ?_⟩
  · dsimp only
    split
    · exact not_mem_delElem_self (wok_reachable tr).2.2.1.1
    · next hni => exact hni
  · rw [mount_fresh url hid2 _ hurl hnone]
    exact mlookup_mset_self url _ _
  · rw [mount_fresh url hid2 _ hurl hnone]

/-- C4 witness: after key h loads, unmounting its only subscriber tears
the record down; a fresh mount then creates a new pending record and a
second append. -/
theorem C4_last_unsubscribe_teardown_witness :
    ((¬ "h" = "") ∧
      mlookup "h" (run [Step.mount (some "h") 0, Step.load "h" 0] initWorld).scriptStates =
        some ⟨Status.loaded, 0, [0], none⟩ ∧
      (⟨Status.loaded, 0, [0], none⟩ : LoadingRecord).status ≠ Status.loading ∧
      delElem 0 (⟨Status.loaded, 0, [0], none⟩ : LoadingRecord).subscribers = []) ∧
    (mlookup "h" (applyStep (Step.unmount (some "h") 0)
        (run [Step.mount (some "h") 0, Step.load "h" 0] initWorld)).scriptStates = none ∧
     (⟨Status.loaded, 0, [0], none⟩ : LoadingRecord).scriptElement ∉
       (applyStep (Step.unmount (some "h") 0)
         (run [Step.mount (some "h") 0, Step.load "h" 0] initWorld)).head ∧
     mlookup "h" (applyStep (Step.mount (some "h") 1)
        (applyStep (Step.unmount (some "h") 0)
          (run [Step.mount (some "h") 0, Step.load "h" 0] initWorld))).scriptStates =
       some ⟨Status.loading,
         (applyStep (Step.unmount (some "h") 0)
           (run [Step.mount (some "h") 0, Step.load "h" 0] initWorld)).nextScript, [1], none⟩ ∧
     (applyStep (Step.mount (some "h") 1)
        (applyStep (Step.unmount (some "h") 0)
          (run [Step.mount (some "h") 0, Step.load "h" 0] initWorld))).appends =
       ("h", (applyStep (Step.unmount (some "h") 0)
         (run [Step.mount (some "h") 0, Step.load "h" 0] initWorld)).nextScript) ::
       (applyStep (Step.unmount (some "h") 0)
         (run [Step.mount (some "h") 0, Step.load "h" 0] initWorld)).appends) :=
  ⟨⟨by decide, by decide, by decide, by decide⟩,
   C4_last_unsubscribe_teardown [Step.mount (some "h") 0, Step.load "h" 0] "h" 0 1
     ⟨Status.loaded, 0, [0], none⟩ _ _ rfl rfl (by decide) (by decide) (by decide) (by decide)⟩

end LazyScript

namespace LazyScript

/-- C5: a pending record is never torn down: unmounting any subscriber
while the record status is loading keeps the record (minus that
subscriber) and leaves document.head untouched; and whenever a step
removes a record from the registry, that step was an unmount for the
key, the record status was not loading, and the subscriber set emptied. -/
theorem C5_pending_never_torn_down (w : World) (url : String) (hid : Nat)
    (r : LoadingRecord) (s : Step) (hurl : ¬ url = "")
    (hr : mlookup url w.scriptStates = some r) :
    (r.status = Status.loading →
      mlookup url (applyStep (Step.unmount (some url) hid) w).scriptStates =
        some { r with subscribers := delElem hid r.subscribers } ∧
      (applyStep (Step.unmount (some url) hid) w).head = w.head) ∧
    (mlookup url (applyStep s w).scriptStates = none →
      r.status ≠ Status.loading ∧
      ∃ hid2, s = Step.unmount (some url) hid2 ∧ delElem hid2 r.subscribers = []) := by
  constructor
  · intro hst
    have hr2 : mlookup url ({ w with hooks := removeHook hid w.hooks } : World).scriptStates
        = some r := hr
    have hcond : ¬ (delElem hid r.subscribers = [] ∧ r.status ≠ Status.loading) := by
      intro hco; exact hco.2 hst
    simp [applyStep, unmountHook, hurl, cleanupEffect, hr2, hcond, mlookup_mset_self]
  · intro hnone
    cases s with
    | mount u hid3 =>
      cases u with
      | none =>
        have he : mlookup url (applyStep (Step.mount none hid3) w).scriptStates = some r := hr
        simp [he] at hnone
      | some url2 =>
        by_cases hu2 : url2 = ""
        · subst hu2
          have he : mlookup url (applyStep (Step.mount (some "") hid3) w).scriptStates
              = some r := hr
          simp [he] at hnone
        · by_cases hku : url2 = url
          · subst hku
            have h2 := (mount_existing url2 hid3 w (by simp [hr])).2
            rw [hnone] at h2
            simp at h2
          · have hne : url ≠ url2 := fun e => hku e.symm
            cases hm2 : mlookup url2 w.scriptStates with
            | some r2 =>
              cases hst2 : r2.status with
              | loading =>
                have he : mlookup url (applyStep (Step.mount (some url2) hid3) w).scriptStates
                    = some r := by
                  simp [applyStep, runEffect, hu2, hm2, hst2, renderHook,
                    mlookup_mset_ne _ hne, hr]
                simp [he] at hnone
              | loaded =>
                have he : mlookup url (applyStep (Step.mount (some url2) hid3) w).scriptStates
                    = some r := by
                  simp [applyStep, runEffect, hu2, hm2, hst2, renderHook, hr]
                simp [he] at hnone
              | error =>
                have he : mlookup url (applyStep (Step.mount (some url2) hid3) w).scriptStates
                    = some r := by
                  simp [applyStep, runEffect, hu2, hm2, hst2, renderHook, hr]
                simp [he] at hnone
            | none =>
              have he : mlookup url (applyStep (Step.mount (some url2) hid3) w).scriptStates
                  = some r := by
                simp [applyStep, runEffect, hu2, hm2, renderHook, mlookup_mset_ne _ hne, hr]
              simp [he] at hnone
    | unmount u hid3 =>
      cases u with
      | none =>
        have he : mlookup url (applyStep (Step.unmount none hid3) w).scriptStates = some r := hr
        simp [he] at hnone
      | some url2 =>
        by_cases hu2 : url2 = ""
        · subst hu2
          have he : mlookup url (applyStep (Step.unmount (some "") hid3) w).scriptStates
              = some r := by
            simp [applyStep, unmountHook, hr]
          simp [he] at hnone
        · by_cases hku : url2 = url
          · subst hku
            have hr2 : mlookup url2 ({ w with hooks := removeHook hid3 w.hooks } : World).scriptStates
                = some r := hr
            by_cases hcond : delElem hid3 r.subscribers = [] ∧ r.status ≠ Status.loading
            · exact ⟨hcond.2, hid3, rfl, hcond.1⟩
            · have he : mlookup url2 (applyStep (Step.unmount (some url2) hid3) w).scriptStates
                  = some { r with subscribers := delElem hid3 r.subscribers } := by
                simp [applyStep, unmountHook, hu2, cleanupEffect, hr2, hcond, mlookup_mset_self]
              simp [he] at hnone
          · have hne : url ≠ url2 := fun e => hku e.symm
            cases hm2 : mlookup url2 ({ w with hooks := removeHook hid3 w.hooks } : World).scriptStates with
            | none =>
              have he : mlookup url (applyStep (Step.unmount (some url2) hid3) w).scriptStates
                  = some r := by
                simp [applyStep, unmountHook, hu2, cleanupEffect, hm2, hr]
              simp [he] at hnone
            | some r2 =>
              by_cases hcond : delElem hid3 r2.subscribers = [] ∧ r2.status ≠ Status.loading
              · have he : mlookup url (applyStep (Step.unmount (some url2) hid3) w).scriptStates
                    = some r := by
                  simp [applyStep, unmountHook, hu2, cleanupEffect, hm2, hcond,
                    mlookup_mdelete_ne hne, hr]
                simp [he] at hnone
              · have he : mlookup url (applyStep (Step.unmount (some url2) hid3) w).scriptStates
                    = some r := by
                  simp [applyStep, unmountHook, hu2, cleanupEffect, hm2, hcond,
                    mlookup_mset_ne _ hne, hr]
                simp [he] at hnone
    | load url2 sid =>
      cases hm2 : mlookup url2 w.scriptStates with
      | none =>
        have he : mlookup url (applyStep (Step.load url2 sid) w).scriptStates = some r := by
          simp [applyStep, handleLoad, hm2, hr]
        simp [he] at hnone
      | some r2 =>
        by_cases hsid : r2.scriptElement = sid
        · by_cases hku : url2 = url
          · subst hku
            have he : mlookup url2 (applyStep (Step.load url2 sid) w).scriptStates
                = some { r2 with status := Status.loaded } := by
              simp [applyStep, handleLoad, hm2, hsid, mlookup_mset_self]
            simp [he] at hnone
          · have hne : url ≠ url2 := fun e => hku e.symm
            have he : mlookup url (applyStep (Step.load url2 sid) w).scriptStates = some r := by
              simp [applyStep, handleLoad, hm2, hsid, mlookup_mset_ne _ hne, hr]
            simp [he] at hnone
        · have he : mlookup url (applyStep (Step.load url2 sid) w).scriptStates = some r := by
            simp [applyStep, handleLoad, hm2, hsid, hr]
          simp [he] at hnone
    | fail url2 sid =>
      cases hm2 : mlookup url2 w.scriptStates with
      | none =>
        have he : mlookup url (applyStep (Step.fail url2 sid) w).scriptStates = some r := by
          simp [applyStep, handleError, hm2, hr]
        simp [he] at hnone
      | some r2 =>
        by_cases hsid : r2.scriptElement = sid
        · by_cases hku : url2 = url
          · subst hku
            have he : mlookup url2 (applyStep (Step.fail url2 sid) w).scriptStates
                = some { r2 with status := Status.error, error := some (loadFailError url2) } := by
              simp [applyStep, handleError, hm2, hsid, mlookup_mset_self]
            simp [he] at hnone
          · have hne : url ≠ url2 := fun e => hku e.symm
            have he : mlookup url (applyStep (Step.fail url2 sid) w).scriptStates = some r := by
              simp [applyStep, handleError, hm2, hsid, mlookup_mset_ne _ hne, hr]
            simp [he] at hnone
        · have he : mlookup url (applyStep (Step.fail url2 sid) w).scriptStates = some r := by
            simp [applyStep, handleError, hm2, hsid, hr]
          simp [he] at hnone

/-- C5 witness: unmounting the only subscriber of key f while its fetch
is in flight keeps the record (with an empty subscriber set) and keeps
the script element in document.head; and a load step on the live record
does not remove it, so the removal characterization holds vacuously
there. -/
theorem C5_pending_never_torn_down_witness :
    ((¬ "f" = "") ∧
      mlookup "f" (run [Step.mount (some "f") 0] initWorld).scriptStates =
        some ⟨Status.loading, 0, [0], none⟩) ∧
    (((⟨Status.loading, 0, [0], none⟩ : LoadingRecord).status = Status.loading →
      mlookup "f" (applyStep (Step.unmount (some "f") 0)
          (run [Step.mount (some "f") 0] initWorld)).scriptStates =
        some { (⟨Status.loading, 0, [0], none⟩ : LoadingRecord) with
                 subscribers := delElem 0 (⟨Status.loading, 0, [0], none⟩ : LoadingRecord).subscribers } ∧
      (applyStep (Step.unmount (some "f") 0)
          (run [Step.mount (some "f") 0] initWorld)).head =
        (run [Step.mount (some "f") 0] initWorld).head) ∧
     (mlookup "f" (applyStep (Step.load "f" 0)
          (run [Step.mount (some "f") 0] initWorld)).scriptStates = none →
      (⟨Status.loading, 0, [0], none⟩ : LoadingRecord).status ≠ Status.loading ∧
      ∃ hid2, Step.load "f" 0 = Step.unmount (some "f") hid2 ∧
        delElem hid2 (⟨Status.loading, 0, [0], none⟩ : LoadingRecord).subscribers = [])) :=
  ⟨⟨by decide, by decide⟩,
   C5_pending_never_torn_down (run [Step.mount (some "f") 0] initWorld) "f" 0
     ⟨Status.loading, 0, [0], none⟩ (Step.load "f" 0) (by decide) (by decide)⟩

end LazyScript

namespace LazyScript

/-- C6: when the load event fires on the pending record of a key, the
record transitions to loaded and every mounted hook registered in its
subscriber set at that moment sees loading false, loaded true, no
error; when the error event fires, the record transitions to error
with the constructed failure reason and every such subscriber sees
loading false, loaded false, and exactly that reason. -/
theorem C6_outcome_delivered_to_subscribers (w : World) (url : String)
    (r : LoadingRecord) (hr : mlookup url w.scriptStates = some r)
    (_hst : r.status = Status.loading) :
    (mlookup url (applyStep (Step.load url r.scriptElement) w).scriptStates =
       some { r with status := Status.loaded } ∧
     ∀ hid ∈ r.subscribers, (mlookup hid w.hooks).isSome = true →
       mlookup hid (applyStep (Step.load url r.scriptElement) w).hooks =
         some ⟨false, none, true⟩) ∧
    (mlookup url (applyStep (Step.fail url r.scriptElement) w).scriptStates =
       some { r with status := Status.error, error := some (loadFailError url) } ∧
     ∀ hid ∈ r.subscribers, (mlookup hid w.hooks).isSome = true →
       mlookup hid (applyStep (Step.fail url r.scriptElement) w).hooks =
         some ⟨false, some (loadFailError url), false⟩) := by
  refine ⟨⟨?_, ?_⟩, ⟨?_, ?_⟩⟩
  · simp [applyStep, handleLoad, hr, mlookup_mset_self]
  · intro hid hmem hsome
    obtain ⟨hs, hhs⟩ := Option.isSome_iff_exists.mp hsome
    have hn := mlookup_notifyAll_mem (⟨true, none⟩ : StatusUpdate) hmem w.hooks
    simp [applyStep, handleLoad, hr, hn, hhs, subscriberUpdate]
  · simp [applyStep, handleError, hr, mlookup_mset_self]
  · intro hid hmem hsome
    obtain ⟨hs, hhs⟩ := Option.isSome_iff_exists.mp hsome
    have hn := mlookup_notifyAll_mem (⟨false, some (loadFailError url)⟩ : StatusUpdate) hmem w.hooks
    simp [applyStep, handleError, hr, hn, hhs, subscriberUpdate]

/-- C6 witness: for two subscribers of the pending key g, the load
event makes both mounted subscribers see the loaded view (instantiated
at subscriber 1) and the error event would deliver the constructed
reason. -/
theorem C6_outcome_delivered_to_subscribers_witness :
    (mlookup "g" (run [Step.mount (some "g") 0, Step.mount (some "g") 1] initWorld).scriptStates =
       some ⟨Status.loading, 0, [1, 0], none⟩ ∧
     (⟨Status.loading, 0, [1, 0], none⟩ : LoadingRecord).status = Status.loading) ∧
    (mlookup "g" (applyStep (Step.load "g" 0)
        (run [Step.mount (some "g") 0, Step.mount (some "g") 1] initWorld)).scriptStates =
      some { (⟨Status.loading, 0, [1, 0], none⟩ : LoadingRecord) with status := Status.loaded } ∧
     ∀ hid ∈ (⟨Status.loading, 0, [1, 0], none⟩ : LoadingRecord).subscribers,
       (mlookup hid (run [Step.mount (some "g") 0, Step.mount (some "g") 1] initWorld).hooks).isSome = true →
       mlookup hid (applyStep (Step.load "g" 0)
          (run [Step.mount (some "g") 0, Step.mount (some "g") 1] initWorld)).hooks =
         some ⟨false, none, true⟩) :=
  ⟨⟨by decide, by decide⟩,
   (C6_outcome_delivered_to_subscribers
     (run [Step.mount (some "g") 0, Step.mount (some "g") 1] initWorld) "g"
     ⟨Status.loading, 0, [1, 0], none⟩ (by decide) (by decide)).1⟩

/-- C7 counterexample: mounting with the empty key sets the view error
to the Error with message scriptUrl cannot be empty, not to none as the
claim states; registry and append log stay empty as claimed. -/
theorem C7_counterexample :
    (mlookup 0 (run [Step.mount (some "") 0] initWorld).hooks).map HookState.error =
      some (some emptyUrlError) ∧
    (run [Step.mount (some "") 0] initWorld).scriptStates = [] ∧
    (run [Step.mount (some "") 0] initWorld).appends = [] := by
  exact ⟨rfl, rfl, rfl⟩

/-- C7 (amended): for an absent or empty key the hook reports loading
false, loaded false, and the Error scriptUrl cannot be empty; it
touches no registry record, appends no script element, and starts no
fetch. -/
theorem C7_falsy_key_no_fetch (u : Option String) (hid : Nat) (w : World)
    (hfalsy : isFalsy u = true) :
    mlookup hid (applyStep (Step.mount u hid) w).hooks =
      some ⟨false, some emptyUrlError, false⟩ ∧
    (applyStep (Step.mount u hid) w).scriptStates = w.scriptStates ∧
    (applyStep (Step.mount u hid) w).appends = w.appends ∧
    (applyStep (Step.mount u hid) w).head = w.head := by
  rw [mount_falsy u hid w hfalsy]
  exact ⟨mlookup_updateHook_cons hid _ _ w.hooks, rfl, rfl, rfl⟩

/-- C7 witness: the absent key (null scriptUrl) in the empty initial
state. -/
theorem C7_falsy_key_no_fetch_witness :
    (isFalsy none = true) ∧
    (mlookup 3 (applyStep (Step.mount none 3) initWorld).hooks =
       some ⟨false, some emptyUrlError, false⟩ ∧
     (applyStep (Step.mount none 3) initWorld).scriptStates = initWorld.scriptStates ∧
     (applyStep (Step.mount none 3) initWorld).appends = initWorld.appends ∧
     (applyStep (Step.mount none 3) initWorld).head = initWorld.head) :=
  ⟨by decide, C7_falsy_key_no_fetch none 3 initWorld (by decide)⟩

/-- C8 counterexample: the reason delivered for the failed key
https://x/bad.js has message Failed to load script: https://x/bad.js,
which differs from the message Error loading script: https://x/bad.js
stated by the claim. -/
theorem C8_counterexample :
    (mlookup 0 (run [Step.mount (some "https://x/bad.js") 0,
        Step.fail "https://x/bad.js" 0] initWorld).hooks).map HookState.error =
      some (some ⟨"Failed to load script: https://x/bad.js"⟩) ∧
    (⟨"Failed to load script: https://x/bad.js"⟩ : JsError) ≠
      ⟨"Error loading script: https://x/bad.js"⟩ := by
  exact ⟨rfl, by decide⟩

/-- C8 (amended): when the fetch for a key fails, the reason stored in
the record and delivered to every mounted subscriber is the Error whose
message is the text Failed to load script: followed by the key. -/
theorem C8_failure_reason_message (w : World) (url : String)
    (r : LoadingRecord) (hid : Nat)
    (hr : mlookup url w.scriptStates = some r) (hsub : hid ∈ r.subscribers)
    (hsome : (mlookup hid w.hooks).isSome = true) :
    (mlookup url (applyStep (Step.fail url r.scriptElement) w).scriptStates).map
        LoadingRecord.error = some (some ⟨"Failed to load script: " ++ url⟩) ∧
    mlookup hid (applyStep (Step.fail url r.scriptElement) w).hooks =
      some ⟨false, some ⟨"Failed to load script: " ++ url⟩, false⟩ := by
  obtain ⟨hs, hhs⟩ := Option.isSome_iff_exists.mp hsome
  have hn := mlookup_notifyAll_mem
    (⟨false, some ⟨"Failed to load script: " ++ url⟩⟩ : StatusUpdate) hsub w.hooks
  constructor
  · simp [applyStep, handleError, hr, mlookup_mset_self, loadFailError]
  · simp [applyStep, handleError, hr, hn, hhs, subscriberUpdate, loadFailError]

/-- C8 witness: the failing key https://x/bad.js with its single
subscriber. -/
theorem C8_failure_reason_message_witness :
    (mlookup "https://x/bad.js"
        (run [Step.mount (some "https://x/bad.js") 0] initWorld).scriptStates =
       some ⟨Status.loading, 0, [0], none⟩ ∧
     (0 : Nat) ∈ (⟨Status.loading, 0, [0], none⟩ : LoadingRecord).subscribers ∧
     (mlookup 0 (run [Step.mount (some "https://x/bad.js") 0] initWorld).hooks).isSome = true) ∧
    ((mlookup "https://x/bad.js" (applyStep (Step.fail "https://x/bad.js" 0)
        (run [Step.mount (some "https://x/bad.js") 0] initWorld)).scriptStates).map
          LoadingRecord.error =
        some (some ⟨"Failed to load script: " ++ "https://x/bad.js"⟩) ∧
     mlookup 0 (applyStep (Step.fail "https://x/bad.js" 0)
        (run [Step.mount (some "https://x/bad.js") 0] initWorld)).hooks =
       some ⟨false, some ⟨"Failed to load script: " ++ "https://x/bad.js"⟩, false⟩) :=
  ⟨⟨by decide, by decide, by decide⟩,
   C8_failure_reason_message (run [Step.mount (some "https://x/bad.js") 0] initWorld)
     "https://x/bad.js" ⟨Status.loading, 0, [0], none⟩ 0 (by decide) (by decide) (by decide)⟩

end LazyScript

namespace LazyScript

/-- The property asserted by the claim for a view: exactly one of
loading and loaded is true. -/
def exactlyOneOfLoadingLoaded (h : HookState) : Prop :=
  Xor' (h.isLoading = true) (h.isLoaded = true)

/-- C9 counterexample: after the fetch for the non-empty key e fails,
the mounted hook with that key shows loading false and loaded false,
so exactly one of loading and loaded being true fails in a reachable
state with a non-empty key present. -/
theorem C9_counterexample :
    mlookup 0 (run [Step.mount (some "e") 0, Step.fail "e" 0] initWorld).hooks =
      some ⟨false, some (loadFailError "e"), false⟩ ∧
    ¬ exactlyOneOfLoadingLoaded ⟨false, some (loadFailError "e"), false⟩ := by
  refine ⟨rfl, ?_⟩
  simp [exactlyOneOfLoadingLoaded, Xor']

/-- C9 (amended): in every reachable state, every mounted hook shows
one of exactly three views: loading with no error, loaded with no
error, or neither loading nor loaded with an error present; in
particular the view loading false, loaded false, error none is never
observed. -/
theorem C9_view_always_legitimate (tr : List Step) (hid : Nat) (h : HookState)
    (hm : mlookup hid (run tr initWorld).hooks = some h) : goodView h :=
  (wok_reachable tr).2.1 (hid, h) (mlookup_mem hm)

/-- C9 witness: the failed view of key e is one of the three
legitimate shapes. -/
theorem C9_view_always_legitimate_witness :
    (mlookup 0 (run [Step.mount (some "e") 0, Step.fail "e" 0] initWorld).hooks =
      some ⟨false, some (loadFailError "e"), false⟩) ∧
    goodView ⟨false, some (loadFailError "e"), false⟩ :=
  ⟨by decide,
   C9_view_always_legitimate [Step.mount (some "e") 0, Step.fail "e" 0] 0
     ⟨false, some (loadFailError "e"), false⟩ (by decide)⟩

/-- C10: for every argument value, the very first render of a hook
instance shows the useState initial values loading true, error none,
loaded false, before any effect has run; the falsy-key view with
loading false appears only after the effect commits. -/
theorem C10_first_render_initial_values (u : Option String) (hid : Nat) (w : World) :
    mlookup hid (renderHook hid w).hooks = some ⟨true, none, false⟩ ∧
    (isFalsy u = true →
      (mlookup hid (applyStep (Step.mount u hid) w).hooks).map HookState.isLoading =
        some false) := by
  constructor
  · simp [renderHook, mlookup, useStateInit]
  · intro hfalsy
    rw [mount_falsy u hid w hfalsy]
    simp [mlookup_updateHook_cons]

/-- C10 witness: the empty key in the empty initial state. -/
theorem C10_first_render_initial_values_witness :
    (mlookup 2 (renderHook 2 initWorld).hooks = some ⟨true, none, false⟩ ∧
     (isFalsy (some "") = true →
       (mlookup 2 (applyStep (Step.mount (some "") 2) initWorld).hooks).map HookState.isLoading =
         some false)) ∧
    isFalsy (some "") = true :=
  ⟨C10_first_render_initial_values (some "") 2 initWorld, by decide⟩

end LazyScript
